import Mathlib

set_option maxRecDepth 100000

/-!
Shallow embedding of the `httpdigest` Go package (digest.go, transport.go,
md5.go, drainbody.go): an HTTP Digest Authentication client transport.
Machine integers are modelled as `Nat` with explicit masking at 2^32 / byte
boundaries.  External entropy (crypto/rand inside `newCnonce`) is modelled as
an explicit parameter.
-/

namespace Httpdigest

/-- The character `"` (U+0022), named to keep string escapes localized. -/
def dquote : Char := Char.ofNat 34

/-- The backslash character (U+005C). -/
def bslash : Char := Char.ofNat 92

/-! ## Hex encoding (Go `encoding/hex`, lowercase) -/

/-- Lowercase hexadecimal digit for a value below 16 (Go hextable digit). -/
def hexDigitChar (n : Nat) : Char :=
  if n < 10 then Char.ofNat (48 + n) else Char.ofNat (87 + n)

/-- Go `hex.EncodeToString` on one byte: the byte is reduced mod 256 (Go byte
type), then rendered as two lowercase hex digits. -/
def hexByte (b : Nat) : List Char :=
  [hexDigitChar ((b % 256) >>> 4), hexDigitChar ((b % 256) &&& 15)]

/-- Go `hex.EncodeToString` over a byte slice. -/
def hexEncode (bs : List Nat) : String :=
  ⟨(bs.map hexByte).flatten⟩

/-- Minimal hex rendering of a natural number, most significant digit first
(fuel-indexed structural recursion so the kernel can evaluate it). -/
def hexAux : Nat → Nat → List Char
  | 0, _ => []
  | fuel + 1, n => if n = 0 then [] else hexAux fuel (n / 16) ++ [hexDigitChar (n % 16)]

/-- Lowercase hex digits of `n` (Go `%x`), with `0` rendered as `"0"`. -/
def hexNat (n : Nat) : List Char :=
  if n = 0 then [Char.ofNat 48] else hexAux n n

/-- Go `fmt.Sprintf` verb `%08x`: lowercase hex, left-padded with zeros to a
minimum width of 8. -/
def hex8 (n : Nat) : String :=
  ⟨List.replicate (8 - (hexNat n).length) (Char.ofNat 48) ++ hexNat n⟩

/-! ## UTF-8 bytes of a string (Go `[]byte(s)`) -/

/-- UTF-8 encoding of one code point as bytes. -/
def utf8Char (c : Char) : List Nat :=
  let n := c.toNat
  if n < 128 then [n]
  else if n < 2048 then [192 ||| (n >>> 6), 128 ||| (n &&& 63)]
  else if n < 65536 then
    [224 ||| (n >>> 12), 128 ||| ((n >>> 6) &&& 63), 128 ||| (n &&& 63)]
  else
    [240 ||| (n >>> 18), 128 ||| ((n >>> 12) &&& 63),
     128 ||| ((n >>> 6) &&& 63), 128 ||| (n &&& 63)]

/-- The bytes of a Go string (UTF-8). -/
def utf8Bytes (s : String) : List Nat :=
  (s.data.map utf8Char).flatten

/-! ## MD5 (Go `crypto/md5`), RFC 1321, over `Nat` with explicit mod 2^32 -/

/-- 2^32 - 1, the 32-bit mask. -/
def mask32 : Nat := 4294967295

/-- Bitwise NOT on 32 bits. -/
def not32 (x : Nat) : Nat := mask32 ^^^ x

/-- Left-rotation of a 32-bit word by `s` places. -/
def rotl32 (x s : Nat) : Nat :=
  ((x <<< s) ||| (x >>> (32 - s))) &&& mask32

/-- The 64 MD5 sine-derived constants `T[i] = floor(2^32 * abs(sin(i+1)))`. -/
def md5K : List Nat :=
  [0xd76aa478, 0xe8c7b756, 0x242070db, 0xc1bdceee,
   0xf57c0faf, 0x4787c62a, 0xa8304613, 0xfd469501,
   0x698098d8, 0x8b44f7af, 0xffff5bb1, 0x895cd7be,
   0x6b901122, 0xfd987193, 0xa679438e, 0x49b40821,
   0xf61e2562, 0xc040b340, 0x265e5a51, 0xe9b6c7aa,
   0xd62f105d, 0x02441453, 0xd8a1e681, 0xe7d3fbc8,
   0x21e1cde6, 0xc33707d6, 0xf4d50d87, 0x455a14ed,
   0xa9e3e905, 0xfcefa3f8, 0x676f02d9, 0x8d2a4c8a,
   0xfffa3942, 0x8771f681, 0x6d9d6122, 0xfde5380c,
   0xa4beea44, 0x4bdecfa9, 0xf6bb4b60, 0xbebfbc70,
   0x289b7ec6, 0xeaa127fa, 0xd4ef3085, 0x04881d05,
   0xd9d4d039, 0xe6db99e5, 0x1fa27cf8, 0xc4ac5665,
   0xf4292244, 0x432aff97, 0xab9423a7, 0xfc93a039,
   0x655b59c3, 0x8f0ccc92, 0xffeff47d, 0x85845dd1,
   0x6fa87e4f, 0xfe2ce6e0, 0xa3014314, 0x4e0811a1,
   0xf7537e82, 0xbd3af235, 0x2ad7d2bb, 0xeb86d391]

/-- The 64 MD5 per-round left-rotation amounts. -/
def md5S : List Nat :=
  [7, 12, 17, 22, 7, 12, 17, 22, 7, 12, 17, 22, 7, 12, 17, 22,
   5, 9, 14, 20, 5, 9, 14, 20, 5, 9, 14, 20, 5, 9, 14, 20,
   4, 11, 16, 23, 4, 11, 16, 23, 4, 11, 16, 23, 4, 11, 16, 23,
   6, 10, 15, 21, 6, 10, 15, 21, 6, 10, 15, 21, 6, 10, 15, 21]

/-- Round mixing function and message-word index for round `i`. -/
def md5FG (b c d i : Nat) : Nat × Nat :=
  if i < 16 then ((b &&& c) ||| (not32 b &&& d), i)
  else if i < 32 then ((d &&& b) ||| (not32 d &&& c), (5 * i + 1) % 16)
  else if i < 48 then (b ^^^ c ^^^ d, (3 * i + 5) % 16)
  else (c ^^^ (b ||| not32 d), (7 * i) % 16)

/-- Little-endian 32-bit word `i` of a 64-byte block. -/
def leWord (bs : List Nat) (i : Nat) : Nat :=
  bs.getD (4 * i) 0 ||| (bs.getD (4 * i + 1) 0 <<< 8) |||
  (bs.getD (4 * i + 2) 0 <<< 16) ||| (bs.getD (4 * i + 3) 0 <<< 24)

/-- One MD5 round on the state `(a, b, c, d)` with message words `m`. -/
def md5Step (m : List Nat) (st : Nat × Nat × Nat × Nat) (i : Nat) :
    Nat × Nat × Nat × Nat :=
  let (a, b, c, d) := st
  let (f, g) := md5FG b c d i
  let f2 := (f + a + md5K.getD i 0 + m.getD g 0) &&& mask32
  (d, (b + rotl32 f2 (md5S.getD i 0)) &&& mask32, b, c)

/-- Process one 64-byte block: 64 rounds, then add to the incoming state. -/
def md5Block (st : Nat × Nat × Nat × Nat) (block : List Nat) :
    Nat × Nat × Nat × Nat :=
  let m := (List.range 16).map (leWord block)
  let r := (List.range 64).foldl (md5Step m) st
  ((st.1 + r.1) &&& mask32, (st.2.1 + r.2.1) &&& mask32,
   (st.2.2.1 + r.2.2.1) &&& mask32, (st.2.2.2 + r.2.2.2) &&& mask32)

/-- MD5 padding: append `0x80`, zero-fill to 56 mod 64, then the original
bit length as 8 little-endian bytes (mod 2^64). -/
def md5Pad (bs : List Nat) : List Nat :=
  let n := bs.length
  let zeros := (120 - ((n + 1) % 64)) % 64
  let bitLen := (n * 8) % (2 ^ 64)
  bs ++ [128] ++ List.replicate zeros 0 ++
    (List.range 8).map (fun k => (bitLen >>> (8 * k)) &&& 255)

/-- Split a byte list into 64-byte chunks (fuel-indexed; the fuel is always
sufficient because every step consumes at least one byte). -/
def chunks64 : Nat → List Nat → List (List Nat)
  | 0, _ => []
  | _, [] => []
  | fuel + 1, l => l.take 64 :: chunks64 fuel (l.drop 64)

/-- Little-endian bytes of a 32-bit word. -/
def wordLEBytes (w : Nat) : List Nat :=
  [w &&& 255, (w >>> 8) &&& 255, (w >>> 16) &&& 255, (w >>> 24) &&& 255]

/-- The 16-byte MD5 digest of a byte list. -/
def md5Bytes (bs : List Nat) : List Nat :=
  let padded := md5Pad bs
  let st := (chunks64 padded.length padded).foldl md5Block
    (0x67452301, 0xefcdab89, 0x98badcfe, 0x10325476)
  wordLEBytes st.1 ++ wordLEBytes st.2.1 ++ wordLEBytes st.2.2.1 ++
    wordLEBytes st.2.2.2

/-- Go `md5hex(format, v...)` (md5.go): MD5 of the formatted string, hex
encoded lowercase.  Call sites only use `%s` and `%08x` verbs, which we render
by explicit concatenation before calling this. -/
def md5hex (s : String) : String :=
  hexEncode (md5Bytes (utf8Bytes s))

/-! ## Go standard-library string helpers used by the package -/

/-- Go `unicode.IsSpace`: the Unicode White_Space code points. -/
def isGoSpace (c : Char) : Bool :=
  let n := c.toNat
  (9 ≤ n && n ≤ 13) || n = 32 || n = 133 || n = 160 || n = 5760 ||
  (8192 ≤ n && n ≤ 8202) || n = 8232 || n = 8233 || n = 8239 ||
  n = 8287 || n = 12288

/-- Go `strings.TrimSpace`: drop leading and trailing White_Space runes. -/
def goTrimSpace (s : String) : String :=
  ⟨((s.data.dropWhile isGoSpace).reverse.dropWhile isGoSpace).reverse⟩

/-- Does the first list start with the second (kernel-reducible helper)? -/
def listStartsWith : List Char → List Char → Bool
  | _, [] => true
  | [], _ :: _ => false
  | c :: cs, p :: ps => c = p && listStartsWith cs ps

/-- Go `strings.HasPrefix` (kernel-reducible replacement for
`String.startsWith`). -/
def strStartsWith (s pre : String) : Bool :=
  listStartsWith s.data pre.data

/-- Helper for `goSplitComma`: `acc` holds the current item reversed. -/
def splitCommaAux : List Char → List Char → List String
  | [], acc => [⟨acc.reverse⟩]
  | c :: rest, acc =>
    if c = ',' then ⟨acc.reverse⟩ :: splitCommaAux rest []
    else splitCommaAux rest (c :: acc)

/-- Go `strings.Split(s, ",")`: splitting on a single comma.  Like Go,
`""` splits to `[""]` and empty items between commas are kept. -/
def goSplitComma (s : String) : List String :=
  splitCommaAux s.data []

/-- One rune of Go `strconv.Quote` output (quote rune is `"`).  Faithful for
ASCII; runes at or above U+0080 are emitted verbatim, approximating Go
`unicode.IsPrint` as true there (no call site in this development quotes a
non-printable rune above ASCII). -/
def goQuoteChar (c : Char) : List Char :=
  if c = dquote || c = bslash then [bslash, c]
  else if 32 ≤ c.toNat && c.toNat < 127 then [c]
  else if 128 ≤ c.toNat then [c]
  else if c.toNat = 7 then [bslash, 'a']
  else if c.toNat = 8 then [bslash, 'b']
  else if c.toNat = 12 then [bslash, 'f']
  else if c.toNat = 10 then [bslash, 'n']
  else if c.toNat = 13 then [bslash, 'r']
  else if c.toNat = 9 then [bslash, 't']
  else if c.toNat = 11 then [bslash, 'v']
  else [bslash, 'x', hexDigitChar ((c.toNat >>> 4) &&& 15), hexDigitChar (c.toNat &&& 15)]

/-- Go `strconv.Quote`: wrap in double quotes, escaping each rune. -/
def goQuote (s : String) : String :=
  ⟨dquote :: (s.data.map goQuoteChar).flatten ++ [dquote]⟩

/-- Is `c` an ASCII lowercase hex digit character. -/
def isHexDigit (c : Char) : Bool :=
  (48 ≤ c.toNat && c.toNat ≤ 57) || (97 ≤ c.toNat && c.toNat ≤ 102)

/-- Hex digit value of `c`, or none. -/
def hexVal (c : Char) : Option Nat :=
  if 48 ≤ c.toNat && c.toNat ≤ 57 then some (c.toNat - 48)
  else if 97 ≤ c.toNat && c.toNat ≤ 102 then some (c.toNat - 87)
  else if 65 ≤ c.toNat && c.toNat ≤ 70 then some (c.toNat - 55)
  else none

/-- Octal digit value of `c`, or none. -/
def octVal (c : Char) : Option Nat :=
  if 48 ≤ c.toNat && c.toNat ≤ 55 then some (c.toNat - 48) else none

/-- Go `strconv.UnquoteChar` with quote rune `"`: decode one (possibly
escaped) rune from the front, returning it and the rest, or fail.  Escaped
byte values from `\x`/octal escapes are modelled as single code points. -/
def goUnquoteChar : List Char → Option (Char × List Char)
  | [] => none
  | c :: rest =>
    if c = dquote then none
    else if 128 ≤ c.toNat then some (c, rest)
    else if c ≠ bslash then some (c, rest)
    else
      match rest with
      | [] => none
      | e :: rest2 =>
        if e = 'a' then some (Char.ofNat 7, rest2)
        else if e = 'b' then some (Char.ofNat 8, rest2)
        else if e = 'f' then some (Char.ofNat 12, rest2)
        else if e = 'n' then some (Char.ofNat 10, rest2)
        else if e = 'r' then some (Char.ofNat 13, rest2)
        else if e = 't' then some (Char.ofNat 9, rest2)
        else if e = 'v' then some (Char.ofNat 11, rest2)
        else if e = 'x' then
          match rest2 with
          | d1 :: d2 :: rest3 =>
            match hexVal d1, hexVal d2 with
            | some v1, some v2 => some (Char.ofNat (16 * v1 + v2), rest3)
            | _, _ => none
          | _ => none
        else if (octVal e).isSome then
          match rest2 with
          | d1 :: d2 :: rest3 =>
            match octVal e, octVal d1, octVal d2 with
            | some v0, some v1, some v2 =>
              let v := 64 * v0 + 8 * v1 + v2
              if v > 255 then none else some (Char.ofNat v, rest3)
            | _, _, _ => none
          | _ => none
        else if e = 'u' then
          match rest2 with
          | d1 :: d2 :: d3 :: d4 :: rest3 =>
            match hexVal d1, hexVal d2, hexVal d3, hexVal d4 with
            | some v1, some v2, some v3, some v4 =>
              let v := 4096 * v1 + 256 * v2 + 16 * v3 + v4
              if 55296 ≤ v && v ≤ 57343 then none else some (Char.ofNat v, rest3)
            | _, _, _, _ => none
          | _ => none
        else if e = 'U' then
          match rest2 with
          | d1 :: d2 :: d3 :: d4 :: d5 :: d6 :: d7 :: d8 :: rest3 =>
            match hexVal d1, hexVal d2, hexVal d3, hexVal d4,
                  hexVal d5, hexVal d6, hexVal d7, hexVal d8 with
            | some v1, some v2, some v3, some v4, some v5, some v6, some v7, some v8 =>
              let v := v1 <<< 28 ||| v2 <<< 24 ||| v3 <<< 20 ||| v4 <<< 16 |||
                       v5 <<< 12 ||| v6 <<< 8 ||| v7 <<< 4 ||| v8
              if v > 1114111 || (55296 ≤ v && v ≤ 57343) then none
              else some (Char.ofNat v, rest3)
            | _, _, _, _, _, _, _, _ => none
          | _ => none
        else if e = bslash then some (bslash, rest2)
        else if e = dquote then some (dquote, rest2)
        else none

/-- The interior loop of Go `strconv.Unquote` (fuel-indexed; each step
consumes at least one character so `fuel = length` always suffices). -/
def goUnquoteLoop : Nat → List Char → Option (List Char)
  | _, [] => some []
  | 0, _ :: _ => none
  | fuel + 1, s =>
    match goUnquoteChar s with
    | none => none
    | some (c, rest) => (goUnquoteLoop fuel rest).map (c :: ·)

/-- Go `strconv.Unquote` restricted to the double-quote case (the only case
reachable from `parseDigest`, which guards on a leading `"`): the string must
start and end with `"`, contain no raw newline, and the interior must decode
rune by rune.  Backquote and single-quote inputs are rejected here; those
branches of the Go function are unreachable from this package. -/
def goUnquote (s : String) : Option String :=
  let cs := s.data
  if cs.length < 2 then none
  else if cs.head? ≠ some dquote then none
  else if cs.getLast? ≠ some dquote then none
  else
    let interior := (cs.drop 1).dropLast
    if interior.contains (Char.ofNat 10) then none
    else (goUnquoteLoop interior.length interior).map (⟨·⟩)

/-! ## digest.go: challenge type, parser, digest response engine -/

/-- The structured `WWW-Authenticate: Digest` challenge (digest.go). -/
structure WWWAuth where
  Realm : String := ""
  Domain : String := ""
  Nonce : String := ""
  Opaque : String := ""
  Stale : String := ""
  Algorithm : String := ""
  Qop : String := ""
deriving DecidableEq, Repr

/-- The error values produced by digest.go, one constructor per
`fmt.Errorf` site, carrying the formatted-in argument. -/
inductive GoErr where
  /-- `bad challenge <entry>` from `ParseWWWAuthenticate`. -/
  | malformedChallenge (entry : String)
  /-- `digest not implemented (<qop>)` from `WWWAuth.Digest`. -/
  | unsupportedQop (qop : String)
  /-- `not implemented` from `WWWAuth.ha1`. -/
  | unsupportedAlgorithm
deriving DecidableEq, Repr

/-- Decidable equality for `Except`, so concrete runs can be checked by
`decide`. -/
instance instDecidableEqExcept {ε α : Type} [DecidableEq ε] [DecidableEq α] :
    DecidableEq (Except ε α) := fun x y =>
  match x, y with
  | .error a, .error b =>
    if h : a = b then isTrue (by rw [h])
    else isFalse (by intro hc; injection hc with h2; exact h h2)
  | .error _, .ok _ => isFalse (fun hc => Except.noConfusion hc)
  | .ok _, .error _ => isFalse (fun hc => Except.noConfusion hc)
  | .ok a, .ok b =>
    if h : a = b then isTrue (by rw [h])
    else isFalse (by intro hc; injection hc with h2; exact h h2)

/-- Lookup in the parsed key map; a missing key yields `""` (the Go map
zero value, as read by `dkeys["realm"]` etc.). -/
def mapGet (m : List (String × String)) (k : String) : String :=
  match m.find? (fun kv => kv.1 == k) with
  | some kv => kv.2
  | none => ""

/-- Go map assignment `m[k] = v`: replace any existing binding. -/
def mapSet (m : List (String × String)) (k v : String) : List (String × String) :=
  m.filter (fun kv => kv.1 != k) ++ [(k, v)]

/-- The mutable locals of the `parseDigest` loop: `state` (0 = reading key,
1 = reading value), `quote` (inside a quoted value), `backq` (count of the
run of backslashes just written), the two accumulation buffers, and the
result map. -/
structure PDState where
  state : Nat := 0
  quote : Bool := false
  backq : Nat := 0
  key : List Char := []
  val : List Char := []
  keys : List (String × String) := []
deriving DecidableEq, Repr

/-- Store the pending `key=val` pair: if the accumulated value starts with a
double quote it is unquoted — with an unquoting error silently discarded,
leaving the Go zero value `""` — otherwise it is stored trimmed (the body of
the two identical store sites in `parseDigest`). -/
def pdStore (st : PDState) : List (String × String) :=
  if st.val.head? = some dquote then
    mapSet st.keys (goTrimSpace ⟨st.key⟩) ((goUnquote ⟨st.val⟩).getD "")
  else
    mapSet st.keys (goTrimSpace ⟨st.key⟩) (goTrimSpace ⟨st.val⟩)

/-- One iteration of the `parseDigest` rune loop. -/
def parseDigestStep (st : PDState) (r : Char) : PDState :=
  if st.state = 0 then
    if r = '=' then { st with state := 1 }
    else { st with key := st.key ++ [r] }
  else
    if r = dquote then
      { st with
        quote := if st.backq % 2 = 0 then !st.quote else st.quote,
        val := st.val ++ [r],
        backq := 0 }
    else if r = bslash then
      { st with backq := st.backq + 1, val := st.val ++ [r] }
    else if r = ',' then
      if st.quote then { st with val := st.val ++ [r] }
      else
        { state := 0, quote := false, backq := 0, key := [], val := [],
          keys := pdStore st }
    else
      { st with backq := 0, val := st.val ++ [r] }

/-- After the loop: a pending pair with a non-empty key is stored. -/
def parseDigestFinish (st : PDState) : List (String × String) :=
  if st.key ≠ [] then pdStore st else st.keys

/-- `parseDigest` (digest.go): tokenize the challenge after the 7-byte
`Digest ` scheme token into a key-value map.  `rawDigest[7:]` is modelled as
dropping 7 characters, which agrees with Go byte slicing because the callers
established the ASCII `Digest ` byte prefix. -/
def parseDigest (rawDigest : String) : List (String × String) :=
  parseDigestFinish ((rawDigest.data.drop 7).foldl parseDigestStep {})

/-- `ParseWWWAuthenticate` (digest.go): trim the header value, require the
`Digest ` scheme token, and populate the seven recognized fields. -/
def ParseWWWAuthenticate (entry : String) : Except GoErr WWWAuth :=
  let entry := goTrimSpace entry
  if ¬ strStartsWith entry "Digest " then
    .error (.malformedChallenge entry)
  else
    let dkeys := parseDigest entry
    .ok
      { Realm := mapGet dkeys "realm"
        Domain := mapGet dkeys "domain"
        Nonce := mapGet dkeys "nonce"
        Opaque := mapGet dkeys "opaque"
        Stale := mapGet dkeys "stale"
        Algorithm := mapGet dkeys "algorithm"
        Qop := mapGet dkeys "qop" }

/-- The request context passed to the digest response engine (digest.go). -/
structure DigestInput where
  Username : String := ""
  Password : String := ""
  DigestURI : String := ""
  NonceCount : Nat := 0
  Cnonce : String := ""
  Method : String := ""
deriving DecidableEq, Repr

/-- `WWWAuth.ha1` (digest.go): HA1 per algorithm; any algorithm other than
`""`, `MD5`, `MD5-sess` fails.  The `%08x` verb is `hex8`. -/
def WWWAuth.ha1 (a : WWWAuth) (inp : DigestInput) : Except GoErr String :=
  if a.Algorithm = "" ∨ a.Algorithm = "MD5" then
    .ok (md5hex (inp.Username ++ ":" ++ a.Realm ++ ":" ++ inp.Password))
  else if a.Algorithm = "MD5-sess" then
    .ok (md5hex (md5hex (inp.Username ++ ":" ++ a.Realm ++ ":" ++ inp.Password)
      ++ ":" ++ a.Nonce ++ ":" ++ hex8 inp.NonceCount))
  else
    .error .unsupportedAlgorithm

/-- Go `strings.Join(rvs, ", ")`: the list items separated by comma-space. -/
def joinCS : List String → String
  | [] => ""
  | [x] => x
  | x :: xs => x ++ ", " ++ joinCS xs

/-- `WWWAuth.digestAuth` (digest.go): the qop=auth response computation and
header assembly.  `gen` models the value `newCnonce()` (crypto/rand entropy)
would return if the supplied client nonce is empty. -/
def WWWAuth.digestAuth (a : WWWAuth) (inp : DigestInput) (gen : String) :
    Except GoErr String :=
  match a.ha1 inp with
  | .error e => .error e
  | .ok h1 =>
    let h2 := md5hex (inp.Method ++ ":" ++ inp.DigestURI)
    let cnonce := if inp.Cnonce = "" then gen else inp.Cnonce
    let response := md5hex (h1 ++ ":" ++ a.Nonce ++ ":" ++ hex8 inp.NonceCount
      ++ ":" ++ cnonce ++ ":" ++ "auth" ++ ":" ++ h2)
    let rvs := ["username=" ++ goQuote inp.Username,
                "realm=" ++ goQuote a.Realm,
                "nonce=" ++ goQuote a.Nonce,
                "uri=" ++ goQuote inp.DigestURI,
                "cnonce=" ++ goQuote cnonce,
                "nc=" ++ hex8 inp.NonceCount,
                "qop=auth",
                "response=" ++ goQuote response,
                "algorithm=" ++ goQuote a.Algorithm]
    let rvs := if a.Opaque ≠ "" then rvs ++ ["opaque=" ++ goQuote a.Opaque] else rvs
    .ok ("Digest " ++ joinCS rvs)

/-- The `for _, qop := range qopsplit` loop of `WWWAuth.Digest`: the first
offered value equal to `auth` triggers the auth path; exhausting the list
fails with the unsupported-qop error. -/
def qopLoop (a : WWWAuth) (inp : DigestInput) (gen : String) :
    List String → Except GoErr String
  | [] => .error (.unsupportedQop a.Qop)
  | q :: rest =>
    if q = "auth" then a.digestAuth inp gen else qopLoop a inp gen rest

/-- The nonce-count adjustment at the top of `WWWAuth.Digest`:
`if inp.NonceCount == 0 { inp.NonceCount++ }`. -/
def digestBump (inp : DigestInput) : DigestInput :=
  if inp.NonceCount = 0 then { inp with NonceCount := inp.NonceCount + 1 } else inp

/-- `WWWAuth.Digest` (digest.go): bump a zero nonce count to 1, then
negotiate qop over the comma-separated offers. -/
def WWWAuth.Digest (a : WWWAuth) (inp : DigestInput) (gen : String) :
    Except GoErr String :=
  qopLoop a (digestBump inp) gen (goSplitComma a.Qop)

/-! ## transport.go: probing transport and cached transport

The underlying `http.RoundTripper` is modelled as a pure environment
`net : Nat → Request → Response`: the response the network gives to the
`k`-th call made with a given request.  A call counter is threaded through so
successive round trips can observe different responses.  Entropy sources
(`CnonceGen`, `newCnonce`) are modelled as streams indexed by the same
counter. -/

/-- The parts of `http.Request` the package reads or writes: method, request
URI and hostname of the URL, headers, and the body.  `body` is the current
body content; `getBody` models the optional `GetBody` capability, giving the
content of a fresh reader. -/
structure Request where
  method : String := ""
  requestURI : String := ""
  hostname : String := ""
  headers : List (String × String) := []
  body : Option String := none
  getBody : Option String := none
deriving DecidableEq, Repr

/-- The parts of `http.Response` the package reads: status code and headers.
`drained` records that the package read and closed the body
(`io.Copy(ioutil.Discard, resp.Body); resp.Body.Close()`). -/
structure Response where
  statusCode : Nat := 0
  headers : List (String × String) := []
  drained : Bool := false
deriving DecidableEq, Repr

/-- Go `http.Header.Get`: first value for the key, `""` when absent.  The
keys used by this package are already in canonical MIME form. -/
def headerGet (h : List (String × String)) (k : String) : String :=
  match h.find? (fun kv => kv.1 == k) with
  | some kv => kv.2
  | none => ""

/-- Go `http.Header.Set`: replace all values for the key with one value. -/
def headerSet (h : List (String × String)) (k v : String) : List (String × String) :=
  (k, v) :: h.filter (fun kv => kv.1 != k)

/-- Go `http.Header.Del`: remove the key. -/
def headerDel (h : List (String × String)) (k : String) : List (String × String) :=
  h.filter (fun kv => kv.1 != k)

/-- The configuration of `Transport` (transport.go): credentials and the
client-nonce generator, the latter an entropy stream sampled at the current
call index. -/
structure Transport where
  Username : String := ""
  Password : String := ""
  CnonceGen : Nat → String := fun _ => ""

/-- The request clone built by `doAuthRequest`: headers and URL are copied
(value-identical here); the probe body is a fresh reader from `GetBody` when
available, otherwise a buffered duplicate of the body (same content via
`drainBody`). -/
def cloneForProbe (req : Request) : Request :=
  { req with body :=
      match req.body with
      | none => none
      | some b =>
        match req.getBody with
        | some g => some g
        | none => some b }

/-- `Transport.doAuthRequest` (transport.go): send the cloned probe request;
a non-401 response is returned untouched, a 401 response is returned with
its body drained and closed.  Returns the response and the next call
index. -/
def doAuthRequest (net : Nat → Request → Response) (idx : Nat) (req : Request) :
    Response × Nat :=
  if (net idx (cloneForProbe req)).statusCode ≠ 401 then
    (net idx (cloneForProbe req), idx + 1)
  else
    ({ net idx (cloneForProbe req) with drained := true }, idx + 1)

/-- `Transport.RoundTrip` (transport.go): probe via `doAuthRequest`, then
unconditionally parse a challenge from the probe response, compute the
digest header, set it on the original request, and perform the follow-up
round trip. -/
def Transport.RoundTrip (t : Transport) (ent : Nat → String)
    (net : Nat → Request → Response) (idx : Nat) (req : Request) :
    Except GoErr (Response × Nat) :=
  match ParseWWWAuthenticate
      (headerGet (doAuthRequest net idx req).1.headers "WWW-Authenticate") with
  | .error e => .error e
  | .ok chal =>
    match chal.Digest
        { DigestURI := req.requestURI, Method := req.method,
          Cnonce := t.CnonceGen (doAuthRequest net idx req).2,
          Username := t.Username, Password := t.Password }
        (ent (doAuthRequest net idx req).2) with
    | .error e => .error e
    | .ok authh =>
      .ok (net (doAuthRequest net idx req).2
             { req with headers := headerSet req.headers "Authorization" authh },
           (doAuthRequest net idx req).2 + 1)

/-- The cache key of `CachedTransport.RoundTrip`:
`strings.Join([]string{hostname, username, password}, ",")`. -/
def cacheKey (host user pass : String) : String :=
  host ++ "," ++ user ++ "," ++ pass

/-- Cache lookup (`ristretto` get, modelled as an exact sequential map). -/
def cacheGet (c : List (String × WWWAuth)) (k : String) : Option WWWAuth :=
  (c.find? (fun kv => kv.1 == k)).map (fun kv => kv.2)

/-- Cache insertion (`ristretto` set with cost 1). -/
def cacheSet (c : List (String × WWWAuth)) (k : String) (v : WWWAuth) :
    List (String × WWWAuth) :=
  (k, v) :: c.filter (fun kv => kv.1 != k)

/-- Cache deletion (`ristretto` del). -/
def cacheDel (c : List (String × WWWAuth)) (k : String) :
    List (String × WWWAuth) :=
  c.filter (fun kv => kv.1 != k)

/-- Outcome of one pass through the body of `CachedTransport.RoundTrip`:
either a final result or the tail-recursive retry with the updated request,
call index and cache. -/
inductive AttemptOut where
  | final (resp : Response) (idx : Nat) (cache : List (String × WWWAuth))
  | retry (req : Request) (idx : Nat) (cache : List (String × WWWAuth))
deriving DecidableEq, Repr

/-- The second half of the `CachedTransport.RoundTrip` body, after a
challenge has been obtained: compute and attach the digest header, perform
the authed round trip, and on a 401 with a cached challenge start the retry
(delete the cache entry, remove the Authorization header, re-acquire a fresh
body reader when `GetBody` is available). -/
def authedPhase (t : Transport) (ent : Nat → String)
    (net : Nat → Request → Response) (cached : Bool) (chal : WWWAuth)
    (idx : Nat) (cache : List (String × WWWAuth)) (req : Request) :
    Except GoErr AttemptOut :=
  match chal.Digest
      { DigestURI := req.requestURI, Method := req.method,
        Cnonce := t.CnonceGen idx, Username := t.Username,
        Password := t.Password } (ent idx) with
  | .error e => .error e
  | .ok authh =>
    if (net idx { req with headers := headerSet req.headers "Authorization" authh }).statusCode = 401
        ∧ cached then
      .ok (.retry
        { req with
          headers := headerDel (headerSet req.headers "Authorization" authh) "Authorization",
          body := if req.body.isSome ∧ req.getBody.isSome then req.getBody else req.body }
        (idx + 1)
        (cacheDel cache (cacheKey req.hostname t.Username t.Password)))
    else
      .ok (.final (net idx { req with headers := headerSet req.headers "Authorization" authh })
        (idx + 1) cache)

/-- One pass through the body of `CachedTransport.RoundTrip` (transport.go):
cache lookup; on a miss the probe sequence of `doAuthRequest` followed by
challenge parsing and cache insertion; then the authed phase with
`cached` recording whether the challenge came from the cache. -/
def cachedAttempt (t : Transport) (ent : Nat → String)
    (net : Nat → Request → Response) (idx : Nat)
    (cache : List (String × WWWAuth)) (req : Request) :
    Except GoErr AttemptOut :=
  match cacheGet cache (cacheKey req.hostname t.Username t.Password) with
  | some chal => authedPhase t ent net true chal idx cache req
  | none =>
    match ParseWWWAuthenticate
        (headerGet (doAuthRequest net idx req).1.headers "WWW-Authenticate") with
    | .error e => .error e
    | .ok chal =>
      authedPhase t ent net false chal (doAuthRequest net idx req).2
        (cacheSet cache (cacheKey req.hostname t.Username t.Password) chal) req

/-- `CachedTransport.RoundTrip` (transport.go) with the self-recursion made
fuel-indexed: `none` means the fuel ran out before the recursion finished.
The source recursion is exactly `cachedAttempt` restarted on the retry
output; the theorems below show fuel 2 always suffices. -/
def cachedRoundTrip (t : Transport) (ent : Nat → String)
    (net : Nat → Request → Response) :
    Nat → Nat → List (String × WWWAuth) → Request →
    Option (Except GoErr (Response × Nat × List (String × WWWAuth)))
  | 0, _, _, _ => none
  | fuel + 1, idx, cache, req =>
    match cachedAttempt t ent net idx cache req with
    | .error e => some (.error e)
    | .ok (.final resp idx2 cache2) => some (.ok (resp, idx2, cache2))
    | .ok (.retry req2 idx2 cache2) => cachedRoundTrip t ent net fuel idx2 cache2 req2

/-! ## Concrete fixtures (from digest_test.go and small closed scenarios) -/

/-- The challenge of `TestDigestAuthMD5` (digest_test.go), as parsed. -/
def chalMonero : WWWAuth :=
  { Realm := "monero-rpc", Nonce := "E/fIX+Kmic5GyK1ydhPoFA==",
    Algorithm := "MD5", Qop := "auth", Stale := "false" }

/-- The request context of `TestDigestAuthMD5` (nonce count left at the Go
zero value, as in the test). -/
def inpMonero : DigestInput :=
  { DigestURI := "/json_rpc", Cnonce := "MWI5ZjNlNTc3ZDBhNTUxMWU1NGZmYmI3YzE5YWQ4ODE=",
    Method := "POST", Username := "john", Password := "doe" }

/-- The same request context with the nonce count already at 1 (the value
`WWWAuth.Digest` passes down to `digestAuth`). -/
def inpMonero1 : DigestInput :=
  { inpMonero with NonceCount := 1 }

/-- An entropy stream that always yields the empty string. -/
def entEmpty : Nat → String := fun _ => ""

/-- A network that always answers 200 with no headers. -/
def net200 : Nat → Request → Response := fun _ _ => { statusCode := 200 }

/-- A network whose first answer is a 200 that nevertheless carries a digest
challenge, and whose later answers are 201. -/
def netChal200 : Nat → Request → Response := fun idx _ =>
  if idx = 0 then
    { statusCode := 200, headers := [("WWW-Authenticate", "Digest qop=auth")] }
  else { statusCode := 201 }

/-- A network that always answers 401 with a fresh digest challenge. -/
def net401 : Nat → Request → Response := fun _ _ =>
  { statusCode := 401,
    headers := [("WWW-Authenticate", "Digest qop=auth, realm=r, nonce=n1")] }

/-- A challenge sitting in the cache that the server no longer accepts. -/
def chalStale : WWWAuth := { Realm := "r", Nonce := "n0", Qop := "auth" }

/-- Transport configuration for the cached-retry scenario. -/
def tCached : Transport :=
  { Username := "u", Password := "p", CnonceGen := fun _ => "cn" }

/-- A request to host `h`. -/
def reqHost : Request := { method := "GET", requestURI := "/", hostname := "h" }

/-- A cache holding the stale challenge under the key of `reqHost`. -/
def cacheStale : List (String × WWWAuth) := [("h,u,p", chalStale)]

/-- A tokenizer state in the middle of a quoted value. -/
def pdStQuoted : PDState :=
  { state := 1, quote := true, backq := 0, key := ['r'], val := [], keys := [] }

/-! ## Supporting lemmas -/

theorem headerGet_headerDel (h : List (String × String)) (k : String) :
    headerGet (headerDel h k) k = "" := by
  have h2 : (headerDel h k).find? (fun kv => kv.1 == k) = none := by
    rw [List.find?_eq_none]
    intro x hx
    have := (List.mem_filter.mp hx).2
    simp_all [bne]
  simp [headerGet, h2]

theorem cacheGet_cacheDel (c : List (String × WWWAuth)) (k : String) :
    cacheGet (cacheDel c k) k = none := by
  have h2 : (cacheDel c k).find? (fun kv => kv.1 == k) = none := by
    rw [List.find?_eq_none]
    intro x hx
    have := (List.mem_filter.mp hx).2
    simp_all [bne]
  simp [cacheGet, h2]

theorem qopLoop_mem (a : WWWAuth) (inp : DigestInput) (gen : String)
    (l : List String) (hm : "auth" ∈ l) :
    qopLoop a inp gen l = a.digestAuth inp gen := by
  induction l with
  | nil => cases hm
  | cons q rest ih =>
    rcases List.mem_cons.mp hm with h | h
    · simp [qopLoop, h.symm]
    · by_cases hq : q = "auth"
      · simp [qopLoop, hq]
      · simp [qopLoop, hq, ih h]

theorem qopLoop_not_mem (a : WWWAuth) (inp : DigestInput) (gen : String)
    (l : List String) (hm : "auth" ∉ l) :
    qopLoop a inp gen l = .error (.unsupportedQop a.Qop) := by
  induction l with
  | nil => rfl
  | cons q rest ih =>
    have hq : q ≠ "auth" := fun hc => hm (by simp [hc])
    have hr : "auth" ∉ rest := fun hc => hm (List.mem_cons_of_mem _ hc)
    simp [qopLoop, hq, ih hr]

theorem ha1_error_eq (a : WWWAuth) (inp : DigestInput) (e : GoErr)
    (h : a.ha1 inp = .error e) : e = .unsupportedAlgorithm := by
  unfold WWWAuth.ha1 at h
  split at h
  · cases h
  · split at h
    · cases h
    · injection h with h2
      exact h2.symm

theorem digestAuth_no_qop_error (a : WWWAuth) (inp : DigestInput) (gen q : String) :
    a.digestAuth inp gen ≠ .error (.unsupportedQop q) := by
  unfold WWWAuth.digestAuth
  cases h : a.ha1 inp with
  | error e =>
    have he := ha1_error_eq a inp e h
    subst he
    intro hc
    injection hc with h2
    cases h2
  | ok h1 => intro hc; cases hc

theorem digestBump_cnonce (inp : DigestInput) :
    (digestBump inp).Cnonce = inp.Cnonce := by
  unfold digestBump
  split <;> rfl

theorem digestBump_nc (inp : DigestInput) :
    (digestBump inp).NonceCount = if inp.NonceCount = 0 then 1 else inp.NonceCount := by
  unfold digestBump
  split <;> simp_all

theorem digestBump_eq (inp : DigestInput) :
    digestBump inp =
      { inp with NonceCount := if inp.NonceCount = 0 then 1 else inp.NonceCount } := by
  unfold digestBump
  split <;> simp_all

theorem digestAuth_shape (a : WWWAuth) (inp : DigestInput) (gen h1 : String)
    (hha1 : a.ha1 inp = .ok h1) :
    a.digestAuth inp gen = .ok ("Digest " ++ joinCS
      (["username=" ++ goQuote inp.Username,
        "realm=" ++ goQuote a.Realm,
        "nonce=" ++ goQuote a.Nonce,
        "uri=" ++ goQuote inp.DigestURI,
        "cnonce=" ++ goQuote (if inp.Cnonce = "" then gen else inp.Cnonce),
        "nc=" ++ hex8 inp.NonceCount,
        "qop=auth",
        "response=" ++ goQuote (md5hex (h1 ++ ":" ++ a.Nonce ++ ":"
          ++ hex8 inp.NonceCount ++ ":"
          ++ (if inp.Cnonce = "" then gen else inp.Cnonce) ++ ":" ++ "auth" ++ ":"
          ++ md5hex (inp.Method ++ ":" ++ inp.DigestURI))),
        "algorithm=" ++ goQuote a.Algorithm]
        ++ (if a.Opaque = "" then [] else ["opaque=" ++ goQuote a.Opaque]))) := by
  unfold WWWAuth.digestAuth
  rw [hha1]
  by_cases ho : a.Opaque = "" <;> simp [ho]

theorem digestAuth_gen_irrelevant (a : WWWAuth) (inp : DigestInput) (g1 g2 : String)
    (h : inp.Cnonce ≠ "") : a.digestAuth inp g1 = a.digestAuth inp g2 := by
  unfold WWWAuth.digestAuth
  cases a.ha1 inp with
  | error e => rfl
  | ok h1 => simp [h]

theorem hexDigitChar_hex (n : Nat) (hn : n < 16) :
    isHexDigit (hexDigitChar n) = true := by
  have hall : ∀ m, m < 16 → isHexDigit (hexDigitChar m) = true := by decide
  exact hall n hn

theorem hexByte_hex (b : Nat) (c : Char) (hc : c ∈ hexByte b) :
    isHexDigit c = true := by
  have h1 : (b % 256) >>> 4 < 16 := by
    have : b % 256 < 256 := Nat.mod_lt _ (by norm_num)
    simp only [Nat.shiftRight_eq_div_pow]
    omega
  have h2 : (b % 256) &&& 15 < 16 :=
    Nat.lt_succ_of_le (Nat.and_le_right)
  simp only [hexByte, List.mem_cons, List.not_mem_nil, or_false] at hc
  rcases hc with rfl | rfl
  · exact hexDigitChar_hex _ h1
  · exact hexDigitChar_hex _ h2

theorem hexEncode_hex (bs : List Nat) (c : Char) (hc : c ∈ (hexEncode bs).data) :
    isHexDigit c = true := by
  simp only [hexEncode, List.mem_flatten, List.mem_map] at hc
  obtain ⟨l, ⟨b, _, rfl⟩, hcl⟩ := hc
  exact hexByte_hex b c hcl

theorem md5hex_hex (s : String) (c : Char) (hc : c ∈ (md5hex s).data) :
    isHexDigit c = true :=
  hexEncode_hex _ c hc

theorem hexAux_length (fuel : Nat) : ∀ n k : Nat, n < 16 ^ k →
    (hexAux fuel n).length ≤ k := by
  induction fuel with
  | zero => intro n k _; simp [hexAux]
  | succ f ih =>
    intro n k h
    simp only [hexAux]
    split
    · simp
    · have hn : n ≠ 0 := by assumption
      have hk : k ≠ 0 := by
        rintro rfl
        simp only [pow_zero] at h
        omega
      obtain ⟨k2, rfl⟩ : ∃ k2, k = k2 + 1 := ⟨k - 1, by omega⟩
      have hdiv : n / 16 < 16 ^ k2 := by
        rw [Nat.div_lt_iff_lt_mul (by norm_num)]
        calc n < 16 ^ (k2 + 1) := h
        _ = 16 ^ k2 * 16 := by ring
      have := ih (n / 16) k2 hdiv
      simp only [List.length_append, List.length_cons, List.length_nil]
      omega

theorem hexAux_length_pos (fuel n : Nat) (hn : n ≠ 0) (hf : fuel ≠ 0) :
    1 ≤ (hexAux fuel n).length := by
  obtain ⟨f, rfl⟩ : ∃ f, fuel = f + 1 := ⟨fuel - 1, by omega⟩
  simp only [hexAux]
  rw [if_neg hn]
  simp

theorem hex8_length (n : Nat) (h : n < 4294967296) : (hex8 n).length = 8 := by
  have hlen : (hexNat n).length ≤ 8 := by
    unfold hexNat
    split
    · simp
    · exact hexAux_length n n 8 (by norm_num at h ⊢; omega)
  have h1 : 1 ≤ (hexNat n).length := by
    unfold hexNat
    split
    · simp
    · next hn => exact hexAux_length_pos n n hn hn
  show (List.replicate (8 - (hexNat n).length) (Char.ofNat 48) ++ hexNat n).length = 8
  simp only [List.length_append, List.length_replicate]
  omega

theorem authedPhase_false_no_retry (t : Transport) (ent : Nat → String)
    (net : Nat → Request → Response) (chal : WWWAuth) (idx : Nat)
    (cache : List (String × WWWAuth)) (req : Request)
    (r2 : Request) (i2 : Nat) (c2 : List (String × WWWAuth)) :
    authedPhase t ent net false chal idx cache req ≠ .ok (.retry r2 i2 c2) := by
  unfold authedPhase
  cases chal.Digest
      { DigestURI := req.requestURI, Method := req.method,
        Cnonce := t.CnonceGen idx, Username := t.Username,
        Password := t.Password } (ent idx) with
  | error e => intro hc; cases hc
  | ok authh =>
    simp only [Bool.false_eq_true, and_false, if_false]
    intro hc
    injection hc with hc2
    cases hc2

theorem cachedAttempt_miss_no_retry (t : Transport) (ent : Nat → String)
    (net : Nat → Request → Response) (idx : Nat)
    (cache : List (String × WWWAuth)) (req : Request)
    (hmiss : cacheGet cache (cacheKey req.hostname t.Username t.Password) = none)
    (r2 : Request) (i2 : Nat) (c2 : List (String × WWWAuth)) :
    cachedAttempt t ent net idx cache req ≠ .ok (.retry r2 i2 c2) := by
  unfold cachedAttempt
  rw [hmiss]
  cases ParseWWWAuthenticate
      (headerGet (doAuthRequest net idx req).1.headers "WWW-Authenticate") with
  | error e => intro hc; cases hc
  | ok chal => exact authedPhase_false_no_retry t ent net chal _ _ req r2 i2 c2

theorem cachedAttempt_retry_inv (t : Transport) (ent : Nat → String)
    (net : Nat → Request → Response) (idx : Nat)
    (cache : List (String × WWWAuth)) (req : Request)
    (r2 : Request) (i2 : Nat) (c2 : List (String × WWWAuth))
    (h : cachedAttempt t ent net idx cache req = .ok (.retry r2 i2 c2)) :
    (cacheGet cache (cacheKey req.hostname t.Username t.Password)).isSome
    ∧ c2 = cacheDel cache (cacheKey req.hostname t.Username t.Password)
    ∧ r2.hostname = req.hostname
    ∧ headerGet r2.headers "Authorization" = ""
    ∧ (req.body.isSome → req.getBody.isSome → r2.body = req.getBody)
    ∧ r2.getBody = req.getBody := by
  cases hc : cacheGet cache (cacheKey req.hostname t.Username t.Password) with
  | none =>
    simp only [cachedAttempt, hc] at h
    exact absurd h (by
      cases ParseWWWAuthenticate
          (headerGet (doAuthRequest net idx req).1.headers "WWW-Authenticate") with
      | error e => intro hh; cases hh
      | ok chal => exact authedPhase_false_no_retry t ent net chal _ _ req r2 i2 c2)
  | some chal =>
    simp only [cachedAttempt, hc] at h
    unfold authedPhase at h
    cases hd : chal.Digest
        { DigestURI := req.requestURI, Method := req.method,
          Cnonce := t.CnonceGen idx, Username := t.Username,
          Password := t.Password } (ent idx) with
    | error e => simp only [hd] at h; cases h
    | ok authh =>
      simp only [hd] at h
      split at h
      · injection h with h2
        injection h2 with hreq hidx hcache
        subst hreq
        exact ⟨by simp [hc], hcache.symm, rfl, headerGet_headerDel _ _,
          fun hb hg => by simp [hb, hg], rfl⟩
      · injection h with h2
        cases h2

theorem cachedAttempt_retry_no_second (t : Transport) (ent : Nat → String)
    (net : Nat → Request → Response) (idx : Nat)
    (cache : List (String × WWWAuth)) (req : Request)
    (r2 : Request) (i2 : Nat) (c2 : List (String × WWWAuth))
    (h : cachedAttempt t ent net idx cache req = .ok (.retry r2 i2 c2))
    (r3 : Request) (i3 : Nat) (c3 : List (String × WWWAuth)) :
    cachedAttempt t ent net i2 c2 r2 ≠ .ok (.retry r3 i3 c3) := by
  obtain ⟨_, hc2, hhost, _, _, _⟩ := cachedAttempt_retry_inv t ent net idx cache req r2 i2 c2 h
  apply cachedAttempt_miss_no_retry
  rw [hc2, hhost]
  exact cacheGet_cacheDel cache _

theorem cachedRoundTrip_of_no_retry (t : Transport) (ent : Nat → String)
    (net : Nat → Request → Response) (idx : Nat)
    (cache : List (String × WWWAuth)) (req : Request)
    (h : ∀ r i c, cachedAttempt t ent net idx cache req ≠ .ok (.retry r i c))
    (m : Nat) :
    cachedRoundTrip t ent net (m + 1) idx cache req =
      cachedRoundTrip t ent net 1 idx cache req
    ∧ cachedRoundTrip t ent net (m + 1) idx cache req ≠ none := by
  cases ha : cachedAttempt t ent net idx cache req with
  | error e => simp [cachedRoundTrip, ha]
  | ok out =>
    cases out with
    | final resp idx2 cache2 => simp [cachedRoundTrip, ha]
    | retry req2 idx2 cache2 => exact absurd ha (h req2 idx2 cache2)

/-! ## Sanity checks against the repository's own tests -/

example : md5hex "12345" = "827ccb0eea8a706c4c34a16891f84e7b" := by decide
example : goUnquote "\"a,b\"" = some "a,b" := by decide
example : goUnquote "\"abc" = none := by decide
example : goQuote "john" = "\"john\"" := by decide
example : hex8 1 = "00000001" := by decide
example : goTrimSpace "  Digest x " = "Digest x" := by decide
example : goSplitComma "" = [""] := by decide
example : goSplitComma "auth,auth-int" = ["auth", "auth-int"] := by decide

example :
    ParseWWWAuthenticate "Digest qop=\"auth\",algorithm=MD5,realm=\"monero-rpc\",nonce=\"E/fIX+Kmic5GyK1ydhPoFA==\",stale=false" =
      .ok chalMonero := by decide

example :
    chalMonero.Digest inpMonero "" =
      .ok "Digest username=\"john\", realm=\"monero-rpc\", nonce=\"E/fIX+Kmic5GyK1ydhPoFA==\", uri=\"/json_rpc\", cnonce=\"MWI5ZjNlNTc3ZDBhNTUxMWU1NGZmYmI3YzE5YWQ4ODE=\", nc=00000001, qop=auth, response=\"639f9031211b1b7b9cfbabe9e0a7fd44\", algorithm=\"MD5\"" := by decide

/-! ## The claims -/

/-- Claim C3: on the qop=auth path the digest response engine computes
`HA2 = hex(MD5(method ++ ":" ++ digest-uri))` and
`response = hex(MD5(HA1 ++ ":" ++ nonce ++ ":" ++ nc8 ++ ":" ++ cnonce ++
":auth:" ++ HA2))`; the general shape is stated for every challenge and
request context (given that HA1 computation succeeded), `hex8` renders
exactly 8 digits for every value below 2^32, and at the documented
monero-rpc vector the response hash is `639f9031211b1b7b9cfbabe9e0a7fd44`. -/
theorem claim_C3_response_computation :
    (∀ (a : WWWAuth) (inp : DigestInput) (gen h1 : String), a.ha1 inp = .ok h1 →
      a.digestAuth inp gen = .ok ("Digest " ++ joinCS
        (["username=" ++ goQuote inp.Username,
          "realm=" ++ goQuote a.Realm,
          "nonce=" ++ goQuote a.Nonce,
          "uri=" ++ goQuote inp.DigestURI,
          "cnonce=" ++ goQuote (if inp.Cnonce = "" then gen else inp.Cnonce),
          "nc=" ++ hex8 inp.NonceCount,
          "qop=auth",
          "response=" ++ goQuote (md5hex (h1 ++ ":" ++ a.Nonce ++ ":"
            ++ hex8 inp.NonceCount ++ ":"
            ++ (if inp.Cnonce = "" then gen else inp.Cnonce) ++ ":" ++ "auth" ++ ":"
            ++ md5hex (inp.Method ++ ":" ++ inp.DigestURI))),
          "algorithm=" ++ goQuote a.Algorithm]
          ++ (if a.Opaque = "" then [] else ["opaque=" ++ goQuote a.Opaque]))))
    ∧ (∀ n : Nat, n < 4294967296 → (hex8 n).length = 8)
    ∧ md5hex (md5hex "john:monero-rpc:doe"
        ++ ":E/fIX+Kmic5GyK1ydhPoFA==:00000001:MWI5ZjNlNTc3ZDBhNTUxMWU1NGZmYmI3YzE5YWQ4ODE=:auth:"
        ++ md5hex "POST:/json_rpc") = "639f9031211b1b7b9cfbabe9e0a7fd44" := by
  exact ⟨digestAuth_shape, fun n hn => hex8_length n hn, by decide⟩

/-- Witness for C3 at the monero-rpc test vector. -/
theorem claim_C3_witness :
    chalMonero.ha1 inpMonero1 = .ok (md5hex "john:monero-rpc:doe")
    ∧ chalMonero.digestAuth inpMonero1 "g" =
      .ok "Digest username=\"john\", realm=\"monero-rpc\", nonce=\"E/fIX+Kmic5GyK1ydhPoFA==\", uri=\"/json_rpc\", cnonce=\"MWI5ZjNlNTc3ZDBhNTUxMWU1NGZmYmI3YzE5YWQ4ODE=\", nc=00000001, qop=auth, response=\"639f9031211b1b7b9cfbabe9e0a7fd44\", algorithm=\"MD5\"" :=
  ⟨by decide, by
    rw [claim_C3_response_computation.1 chalMonero inpMonero1 "g"
      (md5hex "john:monero-rpc:doe") (by decide)]
    decide⟩

/-- Claim C4: in the tokenizer, a double quote toggles the inside-quotes
state exactly when the count of immediately preceding backslashes is even
(and never finalizes a pair), a comma read while inside quotes is appended
to the value instead of terminating the pair, and so the input pair
`realm="a,b"` parses as a single field whose value contains the comma. -/
theorem claim_C4_quote_parity :
    (∀ st : PDState, st.state = 1 →
      ((parseDigestStep st dquote).quote =
        if st.backq % 2 = 0 then !st.quote else st.quote)
      ∧ (parseDigestStep st dquote).keys = st.keys
      ∧ (st.quote = true → parseDigestStep st ',' = { st with val := st.val ++ [','] }))
    ∧ parseDigest "Digest realm=\"a,b\"" = [("realm", "a,b")]
    ∧ ParseWWWAuthenticate "Digest realm=\"a,b\"" = .ok { Realm := "a,b" } := by
  refine ⟨?_, by decide, by decide⟩
  intro st hs
  have h0 : st.state ≠ 0 := by rw [hs]; decide
  have hc1 : ¬ (',' = dquote) := by decide
  have hc2 : ¬ (',' = bslash) := by decide
  refine ⟨?_, ?_, ?_⟩
  · simp [parseDigestStep, h0]
  · simp [parseDigestStep, h0]
  · intro hq
    simp [parseDigestStep, h0, hc1, hc2, hq]

/-- Witness for C4 at a concrete tokenizer state inside quotes. -/
theorem claim_C4_witness :
    (parseDigestStep pdStQuoted dquote).quote = false
    ∧ parseDigestStep pdStQuoted ',' =
      { state := 1, quote := true, backq := 0, key := ['r'], val := [','], keys := [] } :=
  ⟨((claim_C4_quote_parity.1 pdStQuoted rfl).1).trans (by decide),
   (((claim_C4_quote_parity.1 pdStQuoted rfl).2.2 rfl)).trans (by decide)⟩

/-- Claim C5: `HA1` is `hex(MD5(user:realm:pass))` for algorithm `""` or
`MD5`, the session-keyed variant for `MD5-sess`, and any other algorithm
makes `ha1` fail with the unsupported-algorithm error — and then the engine
produces no header. -/
theorem claim_C5_ha1 :
    ∀ (a : WWWAuth) (inp : DigestInput),
      ((a.Algorithm = "" ∨ a.Algorithm = "MD5") →
        a.ha1 inp = .ok (md5hex (inp.Username ++ ":" ++ a.Realm ++ ":" ++ inp.Password)))
      ∧ (a.Algorithm = "MD5-sess" →
        a.ha1 inp = .ok (md5hex (md5hex (inp.Username ++ ":" ++ a.Realm ++ ":" ++ inp.Password)
          ++ ":" ++ a.Nonce ++ ":" ++ hex8 inp.NonceCount)))
      ∧ (a.Algorithm ≠ "" → a.Algorithm ≠ "MD5" → a.Algorithm ≠ "MD5-sess" →
        a.ha1 inp = .error .unsupportedAlgorithm
        ∧ ∀ gen s, a.digestAuth inp gen ≠ .ok s) := by
  intro a inp
  refine ⟨fun h => ?_, fun h => ?_, fun h1 h2 h3 => ?_⟩
  · unfold WWWAuth.ha1
    rw [if_pos h]
  · unfold WWWAuth.ha1
    rw [if_neg (by rw [h]; decide), if_pos h]
  · have hha1 : a.ha1 inp = .error .unsupportedAlgorithm := by
      unfold WWWAuth.ha1
      rw [if_neg (by rintro (hc | hc) <;> simp_all), if_neg h3]
    refine ⟨hha1, fun gen s => ?_⟩
    unfold WWWAuth.digestAuth
    rw [hha1]
    intro hc
    cases hc

/-- Witness for C5: the three algorithm cases at concrete inputs. -/
theorem claim_C5_witness :
    chalMonero.ha1 inpMonero1 =
      .ok (md5hex ("john" ++ ":" ++ "monero-rpc" ++ ":" ++ "doe"))
    ∧ ({ Algorithm := "MD5-sess", Realm := "r", Nonce := "n" } : WWWAuth).ha1 inpMonero1 =
      .ok (md5hex (md5hex ("john" ++ ":" ++ "r" ++ ":" ++ "doe") ++ ":" ++ "n" ++ ":" ++ hex8 1))
    ∧ ({ Algorithm := "SHA-256" } : WWWAuth).ha1 inpMonero1 = .error .unsupportedAlgorithm :=
  ⟨(claim_C5_ha1 chalMonero inpMonero1).1 (Or.inr rfl),
   (claim_C5_ha1 _ inpMonero1).2.1 rfl,
   ((claim_C5_ha1 _ inpMonero1).2.2 (by decide) (by decide) (by decide)).1⟩

/-- Claim C6: the engine splits the challenge qop field on commas and fails
with the unsupported-qop error exactly when no offered value equals `auth`;
in particular an empty qop field and a qop offering only `auth-int` both
fail with that error. -/
theorem claim_C6_qop_negotiation :
    (∀ (a : WWWAuth) (inp : DigestInput) (gen : String),
      a.Digest inp gen = .error (.unsupportedQop a.Qop) ↔ "auth" ∉ goSplitComma a.Qop)
    ∧ (∀ (inp : DigestInput) (gen : String) (a : WWWAuth), a.Qop = "" →
      a.Digest inp gen = .error (.unsupportedQop ""))
    ∧ (∀ (inp : DigestInput) (gen : String) (a : WWWAuth), a.Qop = "auth-int" →
      a.Digest inp gen = .error (.unsupportedQop "auth-int")) := by
  have main : ∀ (a : WWWAuth) (inp : DigestInput) (gen : String),
      a.Digest inp gen = .error (.unsupportedQop a.Qop) ↔ "auth" ∉ goSplitComma a.Qop := by
    intro a inp gen
    constructor
    · intro h hm
      unfold WWWAuth.Digest at h
      rw [qopLoop_mem a _ gen _ hm] at h
      exact digestAuth_no_qop_error a _ gen a.Qop h
    · intro hm
      unfold WWWAuth.Digest
      exact qopLoop_not_mem a _ gen _ hm
  refine ⟨main, fun inp gen a h => ?_, fun inp gen a h => ?_⟩
  · rw [show GoErr.unsupportedQop "" = .unsupportedQop a.Qop from by rw [h]]
    exact (main a inp gen).mpr (by rw [h]; decide)
  · rw [show GoErr.unsupportedQop "auth-int" = .unsupportedQop a.Qop from by rw [h]]
    exact (main a inp gen).mpr (by rw [h]; decide)

/-- Witness for C6: concrete qop values, including a supported one. -/
theorem claim_C6_witness :
    ({ Qop := "" } : WWWAuth).Digest inpMonero1 "g" = .error (.unsupportedQop "")
    ∧ ({ Qop := "auth-int" } : WWWAuth).Digest inpMonero1 "g" =
        .error (.unsupportedQop "auth-int")
    ∧ chalMonero.Digest inpMonero1 "g" ≠ .error (.unsupportedQop "auth") :=
  ⟨claim_C6_qop_negotiation.2.1 inpMonero1 "g" _ rfl,
   claim_C6_qop_negotiation.2.2 inpMonero1 "g" _ rfl,
   fun h => (claim_C6_qop_negotiation.1 chalMonero inpMonero1 "g").mp h (by decide)⟩

/-- Claim C7: on the qop=auth path the assembled header has exactly the
field order username, realm, nonce, uri, cnonce, nc, qop=auth, response,
algorithm, with opaque appended exactly when the challenge opaque field is
non-empty, and a zero nonce count is set to 1 before any computation. -/
theorem claim_C7_header_order :
    ∀ (a : WWWAuth) (inp : DigestInput) (gen h1 : String),
      "auth" ∈ goSplitComma a.Qop →
      a.ha1 (digestBump inp) = .ok h1 →
      a.Digest inp gen = .ok ("Digest " ++ joinCS
        (["username=" ++ goQuote inp.Username,
          "realm=" ++ goQuote a.Realm,
          "nonce=" ++ goQuote a.Nonce,
          "uri=" ++ goQuote inp.DigestURI,
          "cnonce=" ++ goQuote (if inp.Cnonce = "" then gen else inp.Cnonce),
          "nc=" ++ hex8 (if inp.NonceCount = 0 then 1 else inp.NonceCount),
          "qop=auth",
          "response=" ++ goQuote (md5hex (h1 ++ ":" ++ a.Nonce ++ ":"
            ++ hex8 (if inp.NonceCount = 0 then 1 else inp.NonceCount) ++ ":"
            ++ (if inp.Cnonce = "" then gen else inp.Cnonce) ++ ":" ++ "auth" ++ ":"
            ++ md5hex (inp.Method ++ ":" ++ inp.DigestURI))),
          "algorithm=" ++ goQuote a.Algorithm]
          ++ (if a.Opaque = "" then [] else ["opaque=" ++ goQuote a.Opaque]))) := by
  intro a inp gen h1 hm hha1
  unfold WWWAuth.Digest
  rw [qopLoop_mem a _ gen _ hm]
  rw [digestAuth_shape a (digestBump inp) gen h1 hha1]
  rw [digestBump_eq]

/-- Witness for C7: the digest_test.go vector, nonce count entering as 0 and
rendered as `nc=00000001`, no opaque field appended. -/
theorem claim_C7_witness :
    "auth" ∈ goSplitComma chalMonero.Qop
    ∧ chalMonero.ha1 (digestBump inpMonero) = .ok (md5hex "john:monero-rpc:doe")
    ∧ chalMonero.Digest inpMonero "" =
      .ok "Digest username=\"john\", realm=\"monero-rpc\", nonce=\"E/fIX+Kmic5GyK1ydhPoFA==\", uri=\"/json_rpc\", cnonce=\"MWI5ZjNlNTc3ZDBhNTUxMWU1NGZmYmI3YzE5YWQ4ODE=\", nc=00000001, qop=auth, response=\"639f9031211b1b7b9cfbabe9e0a7fd44\", algorithm=\"MD5\"" :=
  ⟨by decide, by decide, by
    rw [claim_C7_header_order chalMonero inpMonero "" (md5hex "john:monero-rpc:doe")
      (by decide) (by decide)]
    decide⟩

/-- Claim C9: for a fixed challenge and request context with a non-empty
client nonce the produced header does not depend on the entropy stream, and
every character of every hash rendering is a lowercase hexadecimal digit. -/
theorem claim_C9_determinism :
    (∀ (a : WWWAuth) (inp : DigestInput) (g1 g2 : String), inp.Cnonce ≠ "" →
      a.Digest inp g1 = a.Digest inp g2)
    ∧ (∀ (s : String) (c : Char), c ∈ (md5hex s).data → isHexDigit c = true) := by
  refine ⟨?_, md5hex_hex⟩
  intro a inp g1 g2 h
  unfold WWWAuth.Digest
  have hcn : (digestBump inp).Cnonce ≠ "" := by rwa [digestBump_cnonce]
  generalize goSplitComma a.Qop = l
  induction l with
  | nil => rfl
  | cons q rest ih =>
    by_cases hq : q = "auth"
    · simp only [qopLoop, hq, if_pos]
      exact digestAuth_gen_irrelevant a _ g1 g2 hcn
    · simp only [qopLoop, hq, if_false]
      exact ih

/-- Witness for C9 at the monero-rpc vector with two entropy streams. -/
theorem claim_C9_witness :
    inpMonero1.Cnonce ≠ ""
    ∧ chalMonero.Digest inpMonero1 "g1" = chalMonero.Digest inpMonero1 "g2" :=
  ⟨by decide, claim_C9_determinism.1 chalMonero inpMonero1 "g1" "g2" (by decide)⟩

/-- Claim C10: once the scheme token check passed, parsing always succeeds;
a value opening with a double quote that fails to unquote (unterminated
quote, invalid escape) is stored as the empty string instead of failing the
parse. -/
theorem claim_C10_parse_total :
    (∀ s : String, strStartsWith (goTrimSpace s) "Digest " = true →
      ∃ w, ParseWWWAuthenticate s = .ok w)
    ∧ ParseWWWAuthenticate "Digest realm=\"abc" = .ok {}
    ∧ ParseWWWAuthenticate "Digest realm=\"\\q\"" = .ok {} := by
  refine ⟨?_, by decide, by decide⟩
  intro s h
  have hok : ParseWWWAuthenticate s = .ok
      { Realm := mapGet (parseDigest (goTrimSpace s)) "realm",
        Domain := mapGet (parseDigest (goTrimSpace s)) "domain",
        Nonce := mapGet (parseDigest (goTrimSpace s)) "nonce",
        Opaque := mapGet (parseDigest (goTrimSpace s)) "opaque",
        Stale := mapGet (parseDigest (goTrimSpace s)) "stale",
        Algorithm := mapGet (parseDigest (goTrimSpace s)) "algorithm",
        Qop := mapGet (parseDigest (goTrimSpace s)) "qop" } := by
    simp [ParseWWWAuthenticate, h]
  exact ⟨_, hok⟩

/-- Witness for C10 at the unterminated-quote input. -/
theorem claim_C10_witness :
    strStartsWith (goTrimSpace "Digest realm=\"abc") "Digest " = true
    ∧ ∃ w, ParseWWWAuthenticate "Digest realm=\"abc" = .ok w :=
  ⟨by decide, claim_C10_parse_total.1 "Digest realm=\"abc" (by decide)⟩

/-- Claim C8 (amended): the parser first trims Unicode whitespace; it
produces a Challenge exactly when the trimmed input begins with the literal
scheme token `Digest `, and otherwise fails with the malformed-challenge
error carrying the trimmed input. -/
theorem claim_C8_scheme_gate :
    ∀ s : String,
      (strStartsWith (goTrimSpace s) "Digest " = false →
        ParseWWWAuthenticate s = .error (.malformedChallenge (goTrimSpace s)))
      ∧ (strStartsWith (goTrimSpace s) "Digest " = true →
        ∃ w, ParseWWWAuthenticate s = .ok w) := by
  intro s
  constructor
  · intro h
    simp [ParseWWWAuthenticate, h]
  · intro h
    have hok : ParseWWWAuthenticate s = .ok
        { Realm := mapGet (parseDigest (goTrimSpace s)) "realm",
          Domain := mapGet (parseDigest (goTrimSpace s)) "domain",
          Nonce := mapGet (parseDigest (goTrimSpace s)) "nonce",
          Opaque := mapGet (parseDigest (goTrimSpace s)) "opaque",
          Stale := mapGet (parseDigest (goTrimSpace s)) "stale",
          Algorithm := mapGet (parseDigest (goTrimSpace s)) "algorithm",
          Qop := mapGet (parseDigest (goTrimSpace s)) "qop" } := by
      simp [ParseWWWAuthenticate, h]
    exact ⟨_, hok⟩

/-- Counterexample to C8 as stated: an input that does not begin with
`Digest ` (it begins with a space) for which the parser nevertheless
produces a Challenge, because the input is trimmed first. -/
theorem claim_C8_counterexample :
    strStartsWith " Digest realm=abc" "Digest " = false
    ∧ ParseWWWAuthenticate " Digest realm=abc" = .ok { Realm := "abc" } := by
  decide

/-- Witness for the amended C8 on both sides of the gate. -/
theorem claim_C8_witness :
    ParseWWWAuthenticate "digest realm=x" =
      .error (.malformedChallenge (goTrimSpace "digest realm=x"))
    ∧ ∃ w, ParseWWWAuthenticate " Digest realm=abc" = .ok w :=
  ⟨(claim_C8_scheme_gate "digest realm=x").1 (by decide),
   (claim_C8_scheme_gate " Digest realm=abc").2 (by decide)⟩

/-- Claim C1 (amended): when the probe response status is not 401,
`doAuthRequest` returns that response undrained, but the caller-visible
`RoundTrip` does not return it: it unconditionally parses a challenge from
it, failing with the parse or digest error when the response carries no
usable challenge, and performing the digest follow-up round trip when it
does. -/
theorem claim_C1_probe_parse :
    ∀ (t : Transport) (ent : Nat → String) (net : Nat → Request → Response)
      (idx : Nat) (req : Request),
      (net idx (cloneForProbe req)).statusCode ≠ 401 →
      doAuthRequest net idx req = (net idx (cloneForProbe req), idx + 1)
      ∧ Transport.RoundTrip t ent net idx req =
          (match ParseWWWAuthenticate
              (headerGet (net idx (cloneForProbe req)).headers "WWW-Authenticate") with
           | .error e => .error e
           | .ok chal =>
             match chal.Digest
                 { DigestURI := req.requestURI, Method := req.method,
                   Cnonce := t.CnonceGen (idx + 1), Username := t.Username,
                   Password := t.Password } (ent (idx + 1)) with
             | .error e => .error e
             | .ok authh =>
               .ok (net (idx + 1)
                      { req with headers := headerSet req.headers "Authorization" authh },
                    idx + 2)) := by
  intro t ent net idx req h
  have hda : doAuthRequest net idx req = (net idx (cloneForProbe req), idx + 1) := by
    unfold doAuthRequest
    rw [if_pos h]
  refine ⟨hda, ?_⟩
  unfold Transport.RoundTrip
  rw [hda]

/-- Counterexample to C1 as stated: a 200 probe response with no challenge
header makes `RoundTrip` return a malformed-challenge error instead of the
probe response. -/
theorem claim_C1_counterexample :
    (net200 0 (cloneForProbe {})).statusCode = 200
    ∧ Transport.RoundTrip {} entEmpty net200 0 {} = .error (.malformedChallenge "") := by
  decide

/-- Witness for the amended C1: a 200 probe response that happens to carry a
digest challenge leads to a digest follow-up round trip whose answer (201)
is what the caller receives. -/
theorem claim_C1_witness :
    (netChal200 0 (cloneForProbe {})).statusCode ≠ 401
    ∧ Transport.RoundTrip {} entEmpty netChal200 0 {} = .ok ({ statusCode := 201 }, 2) :=
  ⟨by decide,
   ((claim_C1_probe_parse {} entEmpty netChal200 0 {} (by decide)).2).trans (by decide)⟩

/-- Claim C2: the cached transport retries at most once.  The fuel-indexed
recursion stabilizes at fuel 2 and never diverges; a retry step happens only
when the challenge came from the cache, and it deletes the cache entry,
removes the Authorization header, re-acquires the body from `GetBody` when
available, and the recursive attempt can never itself retry (its challenge
is no longer cached), so a second 401 is returned to the caller. -/
theorem claim_C2_retry_once :
    ∀ (t : Transport) (ent : Nat → String) (net : Nat → Request → Response)
      (n idx : Nat) (cache : List (String × WWWAuth)) (req : Request),
      (cachedRoundTrip t ent net (n + 2) idx cache req =
        cachedRoundTrip t ent net 2 idx cache req)
      ∧ cachedRoundTrip t ent net (n + 2) idx cache req ≠ none
      ∧ (∀ r2 i2 c2, cachedAttempt t ent net idx cache req = .ok (.retry r2 i2 c2) →
          (cacheGet cache (cacheKey req.hostname t.Username t.Password)).isSome
          ∧ cacheGet c2 (cacheKey r2.hostname t.Username t.Password) = none
          ∧ headerGet r2.headers "Authorization" = ""
          ∧ (req.body.isSome → req.getBody.isSome → r2.body = req.getBody)
          ∧ ∀ r3 i3 c3, cachedAttempt t ent net i2 c2 r2 ≠ .ok (.retry r3 i3 c3)) := by
  intro t ent net n idx cache req
  have hmain : ∀ r2 i2 c2, cachedAttempt t ent net idx cache req = .ok (.retry r2 i2 c2) →
      (cacheGet cache (cacheKey req.hostname t.Username t.Password)).isSome
      ∧ cacheGet c2 (cacheKey r2.hostname t.Username t.Password) = none
      ∧ headerGet r2.headers "Authorization" = ""
      ∧ (req.body.isSome → req.getBody.isSome → r2.body = req.getBody)
      ∧ ∀ r3 i3 c3, cachedAttempt t ent net i2 c2 r2 ≠ .ok (.retry r3 i3 c3) := by
    intro r2 i2 c2 h
    obtain ⟨his, hc2, hhost, hauth, hbody, _⟩ :=
      cachedAttempt_retry_inv t ent net idx cache req r2 i2 c2 h
    refine ⟨his, ?_, hauth, hbody,
      cachedAttempt_retry_no_second t ent net idx cache req r2 i2 c2 h⟩
    rw [hc2, hhost]
    exact cacheGet_cacheDel cache _
  have hfuel : (cachedRoundTrip t ent net (n + 2) idx cache req =
        cachedRoundTrip t ent net 2 idx cache req)
      ∧ cachedRoundTrip t ent net (n + 2) idx cache req ≠ none := by
    cases ha : cachedAttempt t ent net idx cache req with
    | error e =>
      have hnr : ∀ r i c, cachedAttempt t ent net idx cache req ≠ .ok (.retry r i c) := by
        intro r i c hc
        rw [ha] at hc
        cases hc
      exact ⟨(cachedRoundTrip_of_no_retry t ent net idx cache req hnr (n + 1)).1.trans
          (cachedRoundTrip_of_no_retry t ent net idx cache req hnr 1).1.symm,
        (cachedRoundTrip_of_no_retry t ent net idx cache req hnr (n + 1)).2⟩
    | ok out =>
      cases out with
      | final resp idx2 cache2 =>
        have hnr : ∀ r i c, cachedAttempt t ent net idx cache req ≠ .ok (.retry r i c) := by
          intro r i c hc
          rw [ha] at hc
          cases hc
        exact ⟨(cachedRoundTrip_of_no_retry t ent net idx cache req hnr (n + 1)).1.trans
            (cachedRoundTrip_of_no_retry t ent net idx cache req hnr 1).1.symm,
          (cachedRoundTrip_of_no_retry t ent net idx cache req hnr (n + 1)).2⟩
      | retry req2 idx2 cache2 =>
        have hstep : ∀ m : Nat, cachedRoundTrip t ent net (m + 1) idx cache req =
            cachedRoundTrip t ent net m idx2 cache2 req2 := by
          intro m
          simp [cachedRoundTrip, ha]
        have hnr2 : ∀ r i c,
            cachedAttempt t ent net idx2 cache2 req2 ≠ .ok (.retry r i c) :=
          cachedAttempt_retry_no_second t ent net idx cache req req2 idx2 cache2 ha
        exact ⟨(hstep (n + 1)).trans
            (((cachedRoundTrip_of_no_retry t ent net idx2 cache2 req2 hnr2 n).1).trans
              (hstep 1).symm),
          fun hc =>
            (cachedRoundTrip_of_no_retry t ent net idx2 cache2 req2 hnr2 n).2
              ((hstep (n + 1)).symm.trans hc)⟩
  exact ⟨hfuel.1, hfuel.2, hmain⟩

/-- Witness for C2: a stale cached challenge and a server that answers 401
twice; the attempt retries exactly once, the retried attempt cannot retry,
and the fuel-indexed recursion is stable and total. -/
theorem claim_C2_witness :
    cachedAttempt tCached entEmpty net401 0 cacheStale reqHost = .ok (.retry reqHost 1 [])
    ∧ cachedRoundTrip tCached entEmpty net401 5 0 cacheStale reqHost =
        cachedRoundTrip tCached entEmpty net401 2 0 cacheStale reqHost
    ∧ cachedRoundTrip tCached entEmpty net401 5 0 cacheStale reqHost ≠ none
    ∧ (cacheGet cacheStale (cacheKey reqHost.hostname tCached.Username tCached.Password)).isSome
    ∧ cacheGet ([] : List (String × WWWAuth))
        (cacheKey reqHost.hostname tCached.Username tCached.Password) = none
    ∧ headerGet reqHost.headers "Authorization" = ""
    ∧ ∀ r3 i3 c3, cachedAttempt tCached entEmpty net401 1 [] reqHost ≠ .ok (.retry r3 i3 c3) := by
  have hat : cachedAttempt tCached entEmpty net401 0 cacheStale reqHost =
      .ok (.retry reqHost 1 []) := by decide
  have h := claim_C2_retry_once tCached entEmpty net401 3 0 cacheStale reqHost
  have h3 := h.2.2 reqHost 1 [] hat
  exact ⟨hat, h.1, h.2.1, h3.1, h3.2.1, h3.2.2.1, h3.2.2.2.2⟩

end Httpdigest
